import Mathlib

/-!
Verification of the client-side map-response reconciliation engine
(package controlclient): the peer store, the peer-change diff, the patch
compactor, and the sticky top-level field merges.

The reconciliation code itself is not part of the provided sources (only
its test file, control/controlclient/map_test.go, is), so every operation
below is modelled from the natural-language specification and validated
against the concrete expectations recorded in that test file.

Conventions of the embedding:
- Go machine integers and opaque byte blobs (node keys, disco keys) are
  modelled as Nat; timestamps as Int.
- Go pointer-or-nil fields (Online, LastSeen, patch fields) are Option.
- A Go nil slice that encodes field absence in a patch is Option of List.
- The peer map (map of NodeID to Node) is an association list whose keys
  are kept unique by the store operations.
-/

namespace Tailscale

/-- Modelled from the spec: a peer snapshot (tailcfg.Node restricted to the
fields the reconciliation core reads). Identity and structural fields come
first, then the patchable fields (relay assignment derp, endpoints, cap,
online, lastSeen, capabilities). -/
structure Node where
  id : Nat := 0
  stableID : String := ""
  name : String := ""
  user : Nat := 0
  key : Nat := 0
  keySignature : List Nat := []
  discoKey : Nat := 0
  keyExpiry : Int := 0
  masqV4 : Option String := none
  masqV6 : Option String := none
  addresses : List String := []
  allowedIPs : List String := []
  hostinfo : String := ""
  exitNodeDNSResolvers : List String := []
  derp : String := ""
  endpoints : List String := []
  cap : Nat := 0
  online : Option Bool := none
  lastSeen : Option Int := none
  capabilities : List String := []
  deriving DecidableEq, Repr

/-- Modelled from the spec: a sparse per-peer update (tailcfg.PeerChange).
Absence of a field (none, or 0 for derpRegion and cap) means unchanged. -/
structure PeerChange where
  nodeID : Nat := 0
  key : Option Nat := none
  discoKey : Option Nat := none
  online : Option Bool := none
  lastSeen : Option Int := none
  keyExpiry : Option Int := none
  keySignature : Option (List Nat) := none
  capabilities : Option (List String) := none
  endpoints : Option (List String) := none
  derpRegion : Nat := 0
  cap : Nat := 0
  deriving DecidableEq, Repr

/-- Aggregate statistics returned by the peer-store update. -/
structure updateStats where
  allNew : Bool := false
  added : Nat := 0
  changed : Nat := 0
  removed : Nat := 0
  deriving DecidableEq, Repr

/-- Modelled from the spec: the relay-region description, opaque to the
merge logic (only whole-value replacement happens). -/
structure DERPRegion where
  regionID : Nat := 0
  nodes : List String := []
  deriving DecidableEq, Repr

/-- Modelled from the spec: DERP home parameters. The region-score mapping
distinguishes absent (none) from explicitly empty (some nil). Scores are
stored and replaced, never computed with, so Rat stands in for float64. -/
structure DERPHomeParams where
  regionScore : Option (List (Nat × Rat)) := none
  deriving DecidableEq, Repr

/-- Modelled from the spec: the relay topology (tailcfg.DERPMap). An empty
region list plays the role of an absent region map. -/
structure DERPMap where
  regions : List (Nat × DERPRegion) := []
  homeParams : Option DERPHomeParams := none
  deriving DecidableEq, Repr

/-- Packet-filter rules are opaque to the merge logic. -/
abbrev FilterRule := String

/-- DNS configuration is replaced wholesale, so it is opaque here. -/
structure DNSConfig where
  domains : List String := []
  deriving DecidableEq, Repr

/-- Modelled from the spec: one server message (tailcfg.MapResponse), the
union of a full peer set, deltas, and the sticky top-level fields. For the
sticky collection fields, none means the field was absent from the wire. -/
structure MapResponse where
  node : Option Node := none
  peers : List Node := []
  peersChanged : List Node := []
  peersRemoved : List Nat := []
  peersChangedPatch : List PeerChange := []
  onlineChange : List (Nat × Bool) := []
  peerSeenChange : List (Nat × Bool) := []
  derpMap : Option DERPMap := none
  packetFilter : Option (List FilterRule) := none
  dnsConfig : Option DNSConfig := none
  domain : String := ""
  collectServices : String := ""
  deriving DecidableEq, Repr

/-- The peer store: an association list from node ID to snapshot. -/
abbrev PeerStore := List (Nat × Node)

/-- Lookup in the peer store (first match wins; keys are unique). -/
def storeGet : PeerStore → Nat → Option Node
  | [], _ => none
  | p :: rest, i => if p.1 = i then some p.2 else storeGet rest i

/-- Insert or replace the entry for a key. -/
def storeSet : PeerStore → Nat → Node → PeerStore
  | [], i, nd => [(i, nd)]
  | p :: rest, i, nd => if p.1 = i then (i, nd) :: rest else p :: storeSet rest i nd

/-- Delete the entry for a key, if present. -/
def storeDel : PeerStore → Nat → PeerStore
  | [], _ => []
  | p :: rest, i => if p.1 = i then rest else p :: storeDel rest i

/-- Split a character list at its last colon: some (before, after) when a
colon occurs, none otherwise. -/
def splitAtLastColon : List Char → Option (List Char × List Char)
  | [] => none
  | c :: rest =>
    match splitAtLastColon rest with
    | some (pre, post) => some (c :: pre, post)
    | none => if c = ':' then some ([], rest) else none

/-- Parse a non-empty all-digit character list as a decimal number. -/
def charsToNatAux : List Char → Nat → Option Nat
  | [], acc => some acc
  | c :: rest, acc =>
    if c.isDigit then charsToNatAux rest (acc * 10 + (c.toNat - 48)) else none

/-- Parse a character list as a decimal number; none when empty or when a
character is not a digit. -/
def charsToNat : List Char → Option Nat
  | [] => none
  | c :: rest => charsToNatAux (c :: rest) 0

/-- The numeric region component of a relay-assignment string of the form
host:regionID (the part after the last colon), if it parses as a number. -/
def derpRegionOf (s : String) : Option Nat :=
  (splitAtLastColon s.data).bind fun p => charsToNat p.2

/-- Replace the region component of a relay-assignment string, keeping the
host component (the spec: the host component is assumed caller-known). -/
def derpSetRegion (s : String) (region : Nat) : String :=
  match splitAtLastColon s.data with
  | some (pre, _) => String.mk (pre ++ ':' :: (Nat.repr region).data)
  | none => String.mk (s.data ++ ':' :: (Nat.repr region).data)

/-- Modelled from the spec: the identity and structural fields of a peer,
whose change makes a peer snapshot pair not patchable (spec 4.1 case c). -/
def identityEqual (a b : Node) : Prop :=
  a.id = b.id ∧ a.stableID = b.stableID ∧ a.name = b.name ∧ a.user = b.user ∧
  a.key = b.key ∧ a.keySignature = b.keySignature ∧ a.discoKey = b.discoKey ∧
  a.keyExpiry = b.keyExpiry ∧ a.masqV4 = b.masqV4 ∧ a.masqV6 = b.masqV6 ∧
  a.addresses = b.addresses ∧ a.allowedIPs = b.allowedIPs ∧
  a.hostinfo = b.hostinfo ∧ a.exitNodeDNSResolvers = b.exitNodeDNSResolvers

instance (a b : Node) : Decidable (identityEqual a b) := by
  unfold identityEqual; infer_instance

/-- The patchable fields of a peer (spec 3): relay assignment, endpoints,
capability version, online flag, last-seen timestamp, capability tokens. -/
def patchableEqual (a b : Node) : Prop :=
  a.derp = b.derp ∧ a.endpoints = b.endpoints ∧ a.cap = b.cap ∧
  a.online = b.online ∧ a.lastSeen = b.lastSeen ∧ a.capabilities = b.capabilities

instance (a b : Node) : Decidable (patchableEqual a b) := by
  unfold patchableEqual; infer_instance

/-- Modelled from the spec (7, diff ambiguity): every differing patchable
field must be encodable in a PeerChange, whose absent encodings are 0 for
derpRegion and cap and none for online and lastSeen; a new value equal to
the absent encoding cannot be carried by a patch. -/
def patchRepresentable (was n : Node) : Prop :=
  (was.derp = n.derp ∨ (derpRegionOf n.derp).getD 0 ≠ 0) ∧
  (was.cap = n.cap ∨ n.cap ≠ 0) ∧
  (was.online = n.online ∨ n.online ≠ none) ∧
  (was.lastSeen = n.lastSeen ∨ n.lastSeen ≠ none)

instance (was n : Node) : Decidable (patchRepresentable was n) := by
  unfold patchRepresentable; infer_instance

/-- The patch carrying exactly the patchable fields on which the two
snapshots differ (spec 4.1 case b). -/
def buildPatch (was n : Node) : PeerChange :=
  { nodeID := n.id
    derpRegion := if was.derp = n.derp then 0 else (derpRegionOf n.derp).getD 0
    endpoints := if was.endpoints = n.endpoints then none else some n.endpoints
    cap := if was.cap = n.cap then 0 else n.cap
    online := if was.online = n.online then none else n.online
    lastSeen := if was.lastSeen = n.lastSeen then none else n.lastSeen
    capabilities := if was.capabilities = n.capabilities then none
                    else some n.capabilities }

/-- Modelled from the spec (4.1): the peer-change diff. Returns, like the
Go function, a pair of an optional patch and an ok flag: (none, true) when
every field is equal, (some patch, true) when only patchable fields differ
and each difference is encodable, and (none, false) otherwise. Identity
checks are evaluated before patchable-field checks. -/
def peerChangeDiff (was n : Node) : Option PeerChange × Bool :=
  if identityEqual was n then
    if patchRepresentable was n then
      if patchableEqual was n then (none, true)
      else (some (buildPatch was n), true)
    else (none, false)
  else (none, false)

/-- Apply to a stored peer exactly the fields present in a patch, leaving
all others untouched (spec 4.2 step 4). The patch fields mirror the wire
type tailcfg.PeerChange exercised by the tests, which carries key material,
key signature, disco key and key expiry alongside the patchable fields. -/
def applyPeerChange (nd : Node) (pc : PeerChange) : Node :=
  { nd with
    key := pc.key.getD nd.key
    discoKey := pc.discoKey.getD nd.discoKey
    online := match pc.online with | some b => some b | none => nd.online
    lastSeen := match pc.lastSeen with | some t => some t | none => nd.lastSeen
    keyExpiry := pc.keyExpiry.getD nd.keyExpiry
    keySignature := pc.keySignature.getD nd.keySignature
    capabilities := pc.capabilities.getD nd.capabilities
    endpoints := pc.endpoints.getD nd.endpoints
    derp := if pc.derpRegion = 0 then nd.derp else derpSetRegion nd.derp pc.derpRegion
    cap := if pc.cap = 0 then nd.cap else pc.cap }

/-- Upsert of the changed and added peers (spec 4.2 step 2); returns the
store plus the (added, changed) counts. -/
def upsertPeers : PeerStore → List Node → PeerStore × (Nat × Nat)
  | s, [] => (s, (0, 0))
  | s, n :: rest =>
    match storeGet s n.id with
    | none =>
      let r := upsertPeers (storeSet s n.id n) rest
      (r.1, (r.2.1 + 1, r.2.2))
    | some _ =>
      let r := upsertPeers (storeSet s n.id n) rest
      (r.1, (r.2.1, r.2.2 + 1))

/-- Removal of peers by ID (spec 4.2 step 3); an absent ID is silently
ignored. Returns the store plus the removed count. -/
def removePeers : PeerStore → List Nat → PeerStore × Nat
  | s, [] => (s, 0)
  | s, i :: rest =>
    match storeGet s i with
    | none => removePeers s rest
    | some _ =>
      let r := removePeers (storeDel s i) rest
      (r.1, r.2 + 1)

/-- Patch application over the store (spec 4.2 step 4); an unknown ID is
silently ignored. Returns the store plus the changed count. -/
def applyPatches : PeerStore → List PeerChange → PeerStore × Nat
  | s, [] => (s, 0)
  | s, pc :: rest =>
    match storeGet s pc.nodeID with
    | none => applyPatches s rest
    | some nd =>
      let r := applyPatches (storeSet s pc.nodeID (applyPeerChange nd pc)) rest
      (r.1, r.2 + 1)

/-- Online toggles (spec 4.2 step 5); unknown IDs are ignored. -/
def applyOnlineChanges : PeerStore → List (Nat × Bool) → PeerStore × Nat
  | s, [] => (s, 0)
  | s, p :: rest =>
    match storeGet s p.1 with
    | none => applyOnlineChanges s rest
    | some nd =>
      let r := applyOnlineChanges (storeSet s p.1 { nd with online := some p.2 }) rest
      (r.1, r.2 + 1)

/-- Seen toggles (spec 4.2 step 6): true sets last-seen to the injected
clock, false clears it to unset; unknown IDs are ignored. -/
def applySeenChanges (clock : Int) : PeerStore → List (Nat × Bool) → PeerStore × Nat
  | s, [] => (s, 0)
  | s, p :: rest =>
    match storeGet s p.1 with
    | none => applySeenChanges clock s rest
    | some nd =>
      let s2 := storeSet s p.1 { nd with lastSeen := if p.2 then some clock else none }
      let r := applySeenChanges clock s2 rest
      (r.1, r.2 + 1)

/-- Modelled from the spec (4.2): the peer-store update for one response.
A non-empty full peer set discards the previous mapping, rebuilds from the
given list, marks the all-new flag and skips every delta operation;
otherwise the deltas apply in the fixed order upsert, remove, patch,
online toggles, seen toggles. -/
def updatePeersStateFromResponse (clock : Int) (s : PeerStore) (res : MapResponse) :
    PeerStore × updateStats :=
  if res.peers.isEmpty then
    let u := upsertPeers s res.peersChanged
    let rm := removePeers u.1 res.peersRemoved
    let pa := applyPatches rm.1 res.peersChangedPatch
    let oc := applyOnlineChanges pa.1 res.onlineChange
    let sc := applySeenChanges clock oc.1 res.peerSeenChange
    (sc.1, { allNew := false, added := u.2.1,
             changed := u.2.2 + pa.2 + oc.2 + sc.2, removed := rm.2 })
  else
    (res.peers.foldl (fun acc n => storeSet acc n.id n) [],
     { allNew := true, added := res.peers.length })

/-- Insert a keyed entry into a list sorted by key. -/
def insertByID (p : Nat × Node) : List (Nat × Node) → List (Nat × Node)
  | [] => [p]
  | q :: qs => if p.1 ≤ q.1 then p :: q :: qs else q :: insertByID p qs

/-- The derived order-stable peer sequence: entries sorted by node ID. -/
def sortByID (l : List (Nat × Node)) : List (Nat × Node) :=
  l.foldr insertByID []

/-- Modelled from the spec (4.3, relay topology): an empty or absent
incoming region map keeps the previous one, a present one replaces it; the
nested home-parameters substructure merges independently, where an absent
region-score mapping keeps the previous mapping and a present one
(including explicitly empty) replaces it. -/
def mergeDERPMap (prev incoming : Option DERPMap) : Option DERPMap :=
  match incoming with
  | none => prev
  | some dm =>
    match prev with
    | none => some dm
    | some old =>
      some
      { regions := if dm.regions = [] then old.regions else dm.regions
        homeParams :=
          match dm.homeParams with
          | none => old.homeParams
          | some hpNew =>
            match old.homeParams with
            | none => some hpNew
            | some hpOld =>
              some { regionScore :=
                       match hpNew.regionScore with
                       | none => hpOld.regionScore
                       | some rs => some rs } }

/-- Modelled from the spec (3, session state): the map session owns the
peer store and the last-known value of every sticky top-level field. -/
structure mapSession where
  peers : PeerStore := []
  selfNode : Option Node := none
  lastDERPMap : Option DERPMap := none
  lastPacketFilter : Option (List FilterRule) := none
  lastDNSConfig : Option DNSConfig := none
  lastDomain : String := ""
  collectServices : Bool := false
  deriving DecidableEq, Repr

/-- A fresh session: empty store, every sticky field at its default; the
engine-level default of the service-collection flag is false. -/
def mapSession.start : mapSession := {}

/-- Modelled from the spec (4.2 and 4.3): apply one map response to the
session state: the peer store consumes the peer operations and each sticky
top-level field merges with omit-means-unchanged semantics. The
service-collection tri-state sets the stored boolean only on the explicit
strings true and false. -/
def updateStateFromResponse (clock : Int) (ms : mapSession) (res : MapResponse) :
    mapSession :=
  { ms with
    peers := (updatePeersStateFromResponse clock ms.peers res).1
    selfNode := match res.node with | none => ms.selfNode | some n => some n
    lastDERPMap := mergeDERPMap ms.lastDERPMap res.derpMap
    lastPacketFilter :=
      match res.packetFilter with
      | none => ms.lastPacketFilter
      | some pf => some pf
    lastDNSConfig :=
      match res.dnsConfig with
      | none => ms.lastDNSConfig
      | some d => some d
    lastDomain := if res.domain = "" then ms.lastDomain else res.domain
    collectServices :=
      if res.collectServices = "true" then true
      else if res.collectServices = "false" then false
      else ms.collectServices }

/-- The reconciled consumer-visible snapshot. -/
structure NetworkMap where
  selfNode : Option Node := none
  peers : List Node := []
  derpMap : Option DERPMap := none
  packetFilter : List FilterRule := []
  dns : DNSConfig := {}
  domain : String := ""
  collectServices : Bool := false
  deriving DecidableEq, Repr

/-- Assemble the network map from the session state: peers in ID order,
sticky fields as last stored. -/
def netmap (ms : mapSession) : NetworkMap :=
  { selfNode := ms.selfNode
    peers := (sortByID ms.peers).map Prod.snd
    derpMap := ms.lastDERPMap
    packetFilter := ms.lastPacketFilter.getD []
    dns := ms.lastDNSConfig.getD {}
    domain := ms.lastDomain
    collectServices := ms.collectServices }

/-- Modelled from the spec (4.4): the patch compactor. Each entry of the
changed-peers list is diffed against the prior snapshot for its ID:
an unchanged entry is dropped, a patchable entry moves to the patch list,
and a not-patchable entry (including an unknown ID) stays in the full-peer
list; surviving entries keep their relative order. Returns the rewritten
full-peer list and the patches to append. -/
def patchifyPeersChanged (base : PeerStore) : List Node → List Node × List PeerChange
  | [] => ([], [])
  | n :: rest =>
    let r := patchifyPeersChanged base rest
    match storeGet base n.id with
    | none => (n :: r.1, r.2)
    | some old =>
      match peerChangeDiff old n with
      | (none, true) => r
      | (some pc, true) => (r.1, pc :: r.2)
      | (_, false) => (n :: r.1, r.2)

/-- The response-level rewrite performed by the patch compactor. -/
def patchifyResponse (base : PeerStore) (mr : MapResponse) : MapResponse :=
  let r := patchifyPeersChanged base mr.peersChanged
  { mr with
    peersChanged := r.1
    peersChangedPatch := mr.peersChangedPatch ++ r.2 }

/-- Entry keeping predicate of the compactor: an entry survives in the
full-peer list exactly when its ID is unknown or its diff is not ok. -/
def patchifyKeeps (base : PeerStore) (n : Node) : Bool :=
  match storeGet base n.id with
  | none => true
  | some old => !(peerChangeDiff old n).2

/-- Patch produced by the compactor for one entry, if any. -/
def patchifyPatchOf (base : PeerStore) (n : Node) : Option PeerChange :=
  match storeGet base n.id with
  | none => none
  | some old =>
    match peerChangeDiff old n with
    | (some pc, true) => some pc
    | (_, _) => none

/-! Concrete fixtures mirroring the nodes used by the Go tests, shared by
the witness theorems below. -/

/-- Fixture: peer 1 named foo, as in the Go tests. -/
def fooNode : Node := { id := 1, name := "foo" }

/-- Fixture: peer 2 named bar, as in the Go tests. -/
def barNode : Node := { id := 2, name := "bar" }

/-!
Theorems. First the association-list store lemmas and the auxiliary facts
about the diff and the seen toggles, then one theorem (plus witness) per
specification claim.
-/

theorem storeGet_set (s : PeerStore) (i : Nat) (nd : Node) (j : Nat) :
    storeGet (storeSet s i nd) j = if i = j then some nd else storeGet s j := by
  induction s with
  | nil =>
    simp [storeGet, storeSet]
  | cons p rest ih =>
    by_cases hp : p.1 = i
    · simp only [storeSet, if_pos hp, storeGet]
      by_cases hij : i = j
      · simp [hij]
      · have : ¬ p.1 = j := by rw [hp]; exact hij
        simp [hij, this, storeGet]
    · simp only [storeSet, if_neg hp, storeGet]
      by_cases hpj : p.1 = j
      · have : ¬ i = j := by intro h; exact hp (by rw [h, hpj])
        simp [hpj, this]
      · simp [hpj, ih]

theorem storeGet_del_ne (s : PeerStore) (i j : Nat) (h : i ≠ j) :
    storeGet (storeDel s i) j = storeGet s j := by
  induction s with
  | nil => simp [storeDel]
  | cons p rest ih =>
    by_cases hp : p.1 = i
    · have h2 : ¬ p.1 = j := by rw [hp]; exact h
      simp [storeDel, hp, storeGet, h2, h]
    · simp only [storeDel, if_neg hp, storeGet]
      by_cases hpj : p.1 = j
      · simp [hpj]
      · simp [hpj, ih]

theorem identityEqual_refl (a : Node) : identityEqual a a :=
  ⟨rfl, rfl, rfl, rfl, rfl, rfl, rfl, rfl, rfl, rfl, rfl, rfl, rfl, rfl⟩

theorem patchableEqual_refl (a : Node) : patchableEqual a a :=
  ⟨rfl, rfl, rfl, rfl, rfl, rfl⟩

theorem patchRepresentable_refl (a : Node) : patchRepresentable a a :=
  ⟨Or.inl rfl, Or.inl rfl, Or.inl rfl, Or.inl rfl⟩

theorem node_eq_of_identity_patchable (a b : Node)
    (hid : identityEqual a b) (hpe : patchableEqual a b) : a = b := by
  obtain ⟨e1, e2, e3, e4, e5, e6, e7, e8, e9, e10, e11, e12, e13, e14⟩ := hid
  obtain ⟨f1, f2, f3, f4, f5, f6⟩ := hpe
  cases a; cases b; simp_all

/-- Claim C3: for all peer snapshots A and B with the same or different ID
that differ in any identity field (StableID, Name, User, the masquerade
addresses, or ID itself), the peer-change diff signals not patchable,
regardless of any other differences, including a differing patchable field
such as Cap. -/
theorem peerChangeDiff_identity_not_patchable (a b : Node)
    (h : a.id ≠ b.id ∨ a.stableID ≠ b.stableID ∨ a.name ≠ b.name ∨
         a.user ≠ b.user ∨ a.masqV4 ≠ b.masqV4 ∨ a.masqV6 ≠ b.masqV6) :
    peerChangeDiff a b = (none, false) := by
  have hid : ¬ identityEqual a b := by
    intro hc
    obtain ⟨e1, e2, e3, e4, e5, e6, e7, e8, e9, e10, e11, e12, e13, e14⟩ := hc
    rcases h with h | h | h | h | h | h
    exacts [h e1, h e2, h e3, h e4, h e9, h e10]
  unfold peerChangeDiff
  simp [hid]

/-- Witness for claim C3, at the mix-patchable-and-not vector of the Go
test: StableID differs while the patchable Cap field also differs. -/
theorem peerChangeDiff_identity_not_patchable_witness :
    peerChangeDiff { id := 1, cap := 1 } { id := 1, cap := 2, stableID := "foo" }
      = (none, false) :=
  peerChangeDiff_identity_not_patchable _ _ (Or.inr (Or.inl (by decide)))

/-- Claim C10: result-shape invariant of the peer-change diff. The result
is (none, true) exactly on equal snapshots; a present patch always comes
with ok true (never with ok false); and an ok-true result on unequal
snapshots always carries a patch. -/
theorem peerChangeDiff_shape (was n : Node) :
    (peerChangeDiff was n = (none, true) ↔ was = n) ∧
    (∀ pc, (peerChangeDiff was n).1 = some pc → (peerChangeDiff was n).2 = true) ∧
    ((peerChangeDiff was n).2 = true → was ≠ n →
      ∃ pc, (peerChangeDiff was n).1 = some pc) := by
  unfold peerChangeDiff
  by_cases hid : identityEqual was n
  · by_cases hrep : patchRepresentable was n
    · by_cases hpe : patchableEqual was n
      · have heq : was = n := node_eq_of_identity_patchable was n hid hpe
        subst heq
        simp [identityEqual_refl, patchRepresentable_refl, patchableEqual_refl]
      · have hne : was ≠ n := by
          intro h; subst h; exact hpe (patchableEqual_refl was)
        simp [hid, hrep, hpe, hne]
    · have hne : was ≠ n := by
        intro h; subst h; exact hrep (patchRepresentable_refl was)
      simp [hid, hrep, hne]
  · have hne : was ≠ n := by
      intro h; subst h; exact hid (identityEqual_refl was)
    simp [hid, hne]

/-- Witness for claim C10: on the equal pair of the Go eq test vector the
diff returns no patch and ok. -/
theorem peerChangeDiff_shape_witness :
    peerChangeDiff { id := 1 } { id := 1 } = (none, true) :=
  (peerChangeDiff_shape { id := 1 } { id := 1 }).1.mpr rfl

theorem patchify_fst (base : PeerStore) (changed : List Node) :
    (patchifyPeersChanged base changed).1 = changed.filter (patchifyKeeps base) := by
  induction changed with
  | nil => rfl
  | cons n rest ih =>
    unfold patchifyPeersChanged
    cases hg : storeGet base n.id with
    | none => simp [List.filter_cons, patchifyKeeps, hg, ih]
    | some old =>
      cases hd : peerChangeDiff old n with
      | mk pc ok =>
        cases pc <;> cases ok <;>
          simp [List.filter_cons, patchifyKeeps, hg, hd, ih]

theorem patchify_snd (base : PeerStore) (changed : List Node) :
    (patchifyPeersChanged base changed).2 =
      changed.filterMap (patchifyPatchOf base) := by
  induction changed with
  | nil => rfl
  | cons n rest ih =>
    unfold patchifyPeersChanged
    cases hg : storeGet base n.id with
    | none => simp [List.filterMap_cons, patchifyPatchOf, hg, ih]
    | some old =>
      cases hd : peerChangeDiff old n with
      | mk pc ok =>
        cases pc <;> cases ok <;>
          simp [List.filterMap_cons, patchifyPatchOf, hg, hd, ih]

/-- Claim C1: patch compaction. Rewriting the changed-peers list keeps in
the full-peer list exactly the entries whose prior snapshot is unknown or
whose diff is not patchable, in their original relative order (a filter);
moves to the patch list, also in order, exactly the patches of the entries
whose diff is ok and non-empty (a filterMap, so entries whose diff reports
unchanged are dropped); and on the concrete spec scenario, where baseline
peer 1 has relay h:1 and the incoming list carries peer 1 with relay h:11
plus an unmodified peer 2, it yields exactly the patch with DERP region 11
for peer 1 and drops peer 2. -/
theorem patchify_compaction (base : PeerStore) (changed : List Node) :
    (patchifyPeersChanged base changed).1 = changed.filter (patchifyKeeps base) ∧
    (patchifyPeersChanged base changed).2 =
      changed.filterMap (patchifyPatchOf base) ∧
    patchifyResponse [(1, { id := 1, derp := "h:1" }), (2, barNode)]
        { peersChanged := [{ id := 1, derp := "h:11" }, barNode] }
      = { peersChangedPatch := [{ nodeID := 1, derpRegion := 11 }] } :=
  ⟨patchify_fst base changed, patchify_snd base changed, by decide⟩

/-- Counterexample to claim C2 as stated: applying a peer patch CAN change
public key material and key expiry. At the change-key and change-key-expiry
vectors of the Go test, a patch carrying a key (resp. a key expiry)
replaces the field of the stored peer. -/
theorem peerChange_apply_key_counterexample :
    (applyPeerChange fooNode { nodeID := 1, key := some 7 }).key = 7 ∧
    fooNode.key = 0 ∧
    (applyPeerChange fooNode { nodeID := 1, keyExpiry := some 123 }).keyExpiry = 123 ∧
    fooNode.keyExpiry = 0 ∧
    (storeGet (updatePeersStateFromResponse 0 [(1, fooNode)]
        { peersChangedPatch := [{ nodeID := 1, key := some 7 }] }).1 1).map Node.key
      = some 7 := by
  refine ⟨rfl, rfl, rfl, rfl, ?_⟩
  decide

/-- Claim C2 as amended: applying a peer patch never changes the fields
for which the PeerChange wire type carries no entry: ID, StableID, name,
owning user, and the masquerade addresses. (The original claim also listed
public key material, key signature and key expiry, but PeerChange carries
those fields and the tests apply them, see the counterexample.) -/
theorem peerChange_apply_frame (nd : Node) (pc : PeerChange) :
    (applyPeerChange nd pc).id = nd.id ∧
    (applyPeerChange nd pc).stableID = nd.stableID ∧
    (applyPeerChange nd pc).name = nd.name ∧
    (applyPeerChange nd pc).user = nd.user ∧
    (applyPeerChange nd pc).masqV4 = nd.masqV4 ∧
    (applyPeerChange nd pc).masqV6 = nd.masqV6 :=
  ⟨rfl, rfl, rfl, rfl, rfl, rfl⟩

/-- Claim C4: a response carrying a complete (non-empty) peer set discards
the previous store and rebuilds it from exactly the given list, marks the
all-new statistics flag with added equal to the list length, and skips
every delta operation of the same response: the result does not depend on
the prior store, the clock, or any delta field of the response. -/
theorem full_replace_semantics (clock clock2 : Int) (s s2 : PeerStore)
    (res res2 : MapResponse) (h : res.peers ≠ []) (h2 : res2.peers = res.peers) :
    updatePeersStateFromResponse clock s res =
      updatePeersStateFromResponse clock2 s2 res2 ∧
    (updatePeersStateFromResponse clock s res).1 =
      res.peers.foldl (fun acc n => storeSet acc n.id n) [] ∧
    (updatePeersStateFromResponse clock s res).2 =
      { allNew := true, added := res.peers.length } := by
  have he : res.peers.isEmpty = false := by
    cases hp : res.peers with
    | nil => exact absurd hp h
    | cons a l => rfl
  have he2 : res2.peers.isEmpty = false := by rw [h2]; exact he
  unfold updatePeersStateFromResponse
  rw [he, he2, h2]
  simp

/-- Witness for claim C4, at the full-peers-ignores-deltas vector of the
Go test: a full set of peers 1 and 2 plus a removal of peer 2 yields the
two peers and allNew statistics, identical to the same full set applied
without the delta from a different prior store. -/
theorem full_replace_semantics_witness :
    updatePeersStateFromResponse 0 [] { peers := [fooNode, barNode], peersRemoved := [2] }
      = updatePeersStateFromResponse 9 [(7, { id := 7 })] { peers := [fooNode, barNode] } ∧
    (updatePeersStateFromResponse 0 [] { peers := [fooNode, barNode], peersRemoved := [2] }).1
      = [fooNode, barNode].foldl (fun acc n => storeSet acc n.id n) [] ∧
    (updatePeersStateFromResponse 0 [] { peers := [fooNode, barNode], peersRemoved := [2] }).2
      = { allNew := true, added := [fooNode, barNode].length } :=
  full_replace_semantics 0 9 [] [(7, { id := 7 })]
    { peers := [fooNode, barNode], peersRemoved := [2] }
    { peers := [fooNode, barNode] } (by simp [fooNode]) rfl

/-- Claim C5: sticky DERP home-parameters merge. When the session has
stored a DERP map whose home parameters carry a region-score mapping,
applying a response whose DERP map has a present home-parameters
substructure with an absent (none) region score preserves the stored
mapping in the resulting network map, while a present and explicitly empty
region score clears it to the empty mapping. -/
theorem derp_home_params_sticky (clock : Int) (ms : mapSession)
    (R : List (Nat × DERPRegion)) (q : Rat)
    (h : ms.lastDERPMap =
      some { regions := R, homeParams := some { regionScore := some [(1, q)] } }) :
    (netmap (updateStateFromResponse clock ms
        { derpMap := some { homeParams := some { regionScore := none } } })).derpMap
      = some { regions := R, homeParams := some { regionScore := some [(1, q)] } } ∧
    (netmap (updateStateFromResponse clock ms
        { derpMap := some { homeParams := some { regionScore := some [] } } })).derpMap
      = some { regions := R, homeParams := some { regionScore := some [] } } := by
  constructor <;> simp [netmap, updateStateFromResponse, mergeDERPMap, h]

/-- Witness for claim C5 at the home-params-sub-fields vectors of the Go
test, with region score one half for region 1. -/
theorem derp_home_params_sticky_witness :
    (netmap (updateStateFromResponse 0
        { lastDERPMap := some { regions := [(1, { regionID := 1 })],
                                homeParams := some { regionScore := some [(1, 1/2)] } } }
        { derpMap := some { homeParams := some { regionScore := none } } })).derpMap
      = some { regions := [(1, { regionID := 1 })],
               homeParams := some { regionScore := some [(1, 1/2)] } } ∧
    (netmap (updateStateFromResponse 0
        { lastDERPMap := some { regions := [(1, { regionID := 1 })],
                                homeParams := some { regionScore := some [(1, 1/2)] } } }
        { derpMap := some { homeParams := some { regionScore := some [] } } })).derpMap
      = some { regions := [(1, { regionID := 1 })],
               homeParams := some { regionScore := some [] } } :=
  derp_home_params_sticky 0 _ [(1, { regionID := 1 })] (1/2) rfl

/-- Claim C6: service-collection flag merge. The stored boolean after a
response equals the previous boolean unless the tri-state string is
exactly true or false, which set it; the fresh-session default is false;
and in particular applying true and then the empty string leaves the flag
true. -/
theorem collect_services_merge (clock : Int) (ms : mapSession) (res : MapResponse) :
    (netmap (updateStateFromResponse clock ms res)).collectServices =
      (if res.collectServices = "true" then true
       else if res.collectServices = "false" then false
       else ms.collectServices) ∧
    mapSession.start.collectServices = false ∧
    (updateStateFromResponse 0 (updateStateFromResponse 0 mapSession.start
        { collectServices := "true" }) { collectServices := "" }).collectServices
      = true :=
  ⟨rfl, rfl, by decide⟩

theorem applySeenChanges_presence (clock : Int) (l : List (Nat × Bool))
    (s : PeerStore) (j : Nat) :
    (storeGet (applySeenChanges clock s l).1 j).isSome = (storeGet s j).isSome := by
  induction l generalizing s with
  | nil => rfl
  | cons p rest ih =>
    unfold applySeenChanges
    cases hg : storeGet s p.1 with
    | none => simp only [ih]
    | some nd =>
      simp only []
      rw [ih, storeGet_set]
      by_cases hpj : p.1 = j
      · subst hpj; simp [hg]
      · simp [hpj]

theorem applySeenChanges_get_not_mem (clock : Int) (l : List (Nat × Bool))
    (s : PeerStore) (i : Nat) (hni : i ∉ l.map Prod.fst) :
    storeGet (applySeenChanges clock s l).1 i = storeGet s i := by
  induction l generalizing s with
  | nil => rfl
  | cons p rest ih =>
    have hne : ¬ p.1 = i := by
      intro h; exact hni (by simp [h])
    have hnr : i ∉ rest.map Prod.fst := by
      intro h; exact hni (by simp [h])
    unfold applySeenChanges
    cases hg : storeGet s p.1 with
    | none => exact ih s hnr
    | some nd =>
      simp only []
      rw [ih _ hnr, storeGet_set]
      simp [hne]

theorem applySeenChanges_get_mem (clock : Int) (l : List (Nat × Bool))
    (s : PeerStore) (i : Nat) (b : Bool) (nd : Node)
    (hnd : (l.map Prod.fst).Nodup) (hmem : (i, b) ∈ l)
    (hget : storeGet s i = some nd) :
    storeGet (applySeenChanges clock s l).1 i =
      some { nd with lastSeen := if b then some clock else none } := by
  induction l generalizing s with
  | nil => cases hmem
  | cons p rest ih =>
    rw [List.map_cons, List.nodup_cons] at hnd
    obtain ⟨hp1, hndr⟩ := hnd
    rcases List.mem_cons.mp hmem with hEq | hmemr
    · have hpi : p.1 = i := by rw [← hEq]
      have hpb : p.2 = b := by rw [← hEq]
      have hp1i : i ∉ rest.map Prod.fst := by rw [← hpi]; exact hp1
      unfold applySeenChanges
      rw [hpi, hget]
      simp only []
      rw [applySeenChanges_get_not_mem clock rest _ i hp1i, storeGet_set]
      simp [hpb]
    · have hip : ¬ p.1 = i := by
        intro hcontra
        exact hp1 (hcontra ▸ List.mem_map.mpr ⟨(i, b), hmemr, rfl⟩)
      unfold applySeenChanges
      cases hg : storeGet s p.1 with
      | none => exact ih s hndr hmemr hget
      | some nd2 =>
        simp only []
        apply ih _ hndr hmemr
        rw [storeGet_set]
        simp [hip, hget]

theorem applySeenChanges_count (clock : Int) (l : List (Nat × Bool))
    (s : PeerStore) :
    (applySeenChanges clock s l).2 =
      (l.filter (fun p => (storeGet s p.1).isSome)).length := by
  induction l generalizing s with
  | nil => rfl
  | cons p rest ih =>
    unfold applySeenChanges
    cases hg : storeGet s p.1 with
    | none => simp [List.filter_cons, hg, ih]
    | some nd =>
      simp only [List.filter_cons, hg]
      rw [ih]
      have hcong : ∀ q ∈ rest,
          ((storeGet (storeSet s p.1
              { nd with lastSeen := if p.2 then some clock else none }) q.1).isSome)
            = ((storeGet s q.1).isSome) := by
        intro q hq
        rw [storeGet_set]
        by_cases hpq : p.1 = q.1
        · simp [← hpq, hg]
        · simp [hpq]
      simp only [List.filter_congr hcong]
      simp

/-- Claim C7: seen toggles. For a response whose seen-toggle list has
pairwise distinct IDs (a Go map), every pair whose ID is present in the
store either sets the last-seen timestamp of that peer to the injected
clock value (pair value true) or clears it to unset (pair value false);
the changed statistic counts exactly the pairs with a known ID; and a pair
naming an unknown ID leaves that ID absent (it is ignored). -/
theorem seen_toggle_semantics (clock : Int) (s : PeerStore) (l : List (Nat × Bool))
    (i : Nat) (b : Bool) (nd : Node) (j : Nat)
    (hnd : (l.map Prod.fst).Nodup) (hmem : (i, b) ∈ l)
    (hget : storeGet s i = some nd) (hj : storeGet s j = none) :
    storeGet (updatePeersStateFromResponse clock s { peerSeenChange := l }).1 i =
      some { nd with lastSeen := if b then some clock else none } ∧
    (updatePeersStateFromResponse clock s { peerSeenChange := l }).2.changed =
      (l.filter (fun p => (storeGet s p.1).isSome)).length ∧
    storeGet (updatePeersStateFromResponse clock s { peerSeenChange := l }).1 j
      = none := by
  have hred : updatePeersStateFromResponse clock s { peerSeenChange := l } =
      ((applySeenChanges clock s l).1,
       { changed := (applySeenChanges clock s l).2 }) := by
    unfold updatePeersStateFromResponse
    simp [upsertPeers, removePeers, applyPatches, applyOnlineChanges]
  rw [hred]
  refine ⟨applySeenChanges_get_mem clock l s i b nd hnd hmem hget,
          applySeenChanges_count clock l s, ?_⟩
  have := applySeenChanges_presence clock l s j
  rw [hj] at this
  simp only [Option.isSome_none] at this
  exact Option.not_isSome_iff_eq_none.mp (by simp [this])

/-- Witness for claim C7, at the peer-seen-at vector of the Go test:
clock 123, peer 1 clears its last-seen, peer 2 gains last-seen 123, both
count as changed, and the unknown ID 404 stays absent. -/
theorem seen_toggle_semantics_witness :
    storeGet (updatePeersStateFromResponse 123
        [(1, { fooNode with lastSeen := some 111 }), (2, barNode)]
        { peerSeenChange := [(1, false), (2, true)] }).1 2 =
      some { barNode with lastSeen := if true then some 123 else none } ∧
    (updatePeersStateFromResponse 123
        [(1, { fooNode with lastSeen := some 111 }), (2, barNode)]
        { peerSeenChange := [(1, false), (2, true)] }).2.changed =
      (([(1, false), (2, true)] : List (Nat × Bool)).filter
        (fun p => (storeGet [(1, { fooNode with lastSeen := some 111 }), (2, barNode)] p.1).isSome)).length ∧
    storeGet (updatePeersStateFromResponse 123
        [(1, { fooNode with lastSeen := some 111 }), (2, barNode)]
        { peerSeenChange := [(1, false), (2, true)] }).1 404 = none :=
  seen_toggle_semantics 123 _ _ 2 true barNode 404
    (by decide) (by decide) (by decide) (by decide)

/-- Claim C8: unknown-ID references are never errors. A head entry of the
removed list naming an ID absent from the store is dropped without any
effect on the store, the removed count, or the processing of the rest of
the list; the same holds for an online toggle and for a patch naming an
unknown ID; and a response whose only content is the removal of an absent
ID leaves the store unchanged with all-zero statistics. -/
theorem unknown_id_ignored (clock : Int) (s : PeerStore)
    (x : Nat) (rrest : List Nat) (i : Nat) (b : Bool) (orest : List (Nat × Bool))
    (pc : PeerChange) (prest : List PeerChange)
    (hx : storeGet s x = none) (hi : storeGet s i = none)
    (hp : storeGet s pc.nodeID = none) :
    removePeers s (x :: rrest) = removePeers s rrest ∧
    applyOnlineChanges s ((i, b) :: orest) = applyOnlineChanges s orest ∧
    applyPatches s (pc :: prest) = applyPatches s prest ∧
    updatePeersStateFromResponse clock s { peersRemoved := [x] } = (s, {}) := by
  refine ⟨?_, ?_, ?_, ?_⟩
  · simp only [removePeers, hx]
  · simp only [applyOnlineChanges, hi]
  · simp only [applyPatches, hp]
  · unfold updatePeersStateFromResponse
    simp [upsertPeers, removePeers, applyPatches, applyOnlineChanges,
          applySeenChanges, hx]

/-- Witness for claim C8, at the remove and online-change vectors of the
Go test: with peers 1 and 2 stored, the absent ID 3 in a removal, the
unknown ID 404 in an online toggle, and a patch for the unknown ID 9 are
all ignored. -/
theorem unknown_id_ignored_witness :
    removePeers [(1, fooNode), (2, barNode)] [3, 4] =
      removePeers [(1, fooNode), (2, barNode)] [4] ∧
    applyOnlineChanges [(1, fooNode), (2, barNode)] [(404, true), (1, true)] =
      applyOnlineChanges [(1, fooNode), (2, barNode)] [(1, true)] ∧
    applyPatches [(1, fooNode), (2, barNode)] [{ nodeID := 9 }] =
      applyPatches [(1, fooNode), (2, barNode)] [] ∧
    updatePeersStateFromResponse 0 [(1, fooNode), (2, barNode)]
        { peersRemoved := [3] } = ([(1, fooNode), (2, barNode)], {}) :=
  unknown_id_ignored 0 [(1, fooNode), (2, barNode)] 3 [4] 404 true [(1, true)]
    { nodeID := 9 } [] (by decide) (by decide) (by decide)

/-!
Sanity checks: the model reproduces the concrete expectations of the Go
test file (TestPeerChangeDiff, TestUpdatePeersStateFromResponse,
TestPatchifyPeersChanged, TestDeltaDERPMap).
-/

theorem check_diff_eq : peerChangeDiff { id := 1 } { id := 1 } = (none, true) := by decide

theorem check_diff_patch_derp :
    peerChangeDiff { id := 1, derp := "127.3.3.40:1" } { id := 1, derp := "127.3.3.40:2" }
      = (some { nodeID := 1, derpRegion := 2 }, true) := by decide

theorem check_diff_patch_endpoints :
    peerChangeDiff { id := 1, endpoints := ["10.0.0.1:1"] }
        { id := 1, endpoints := ["10.0.0.2:2"] }
      = (some { nodeID := 1, endpoints := some ["10.0.0.2:2"] }, true) := by decide

theorem check_diff_patch_cap :
    peerChangeDiff { id := 1, cap := 1 } { id := 1, cap := 2 }
      = (some { nodeID := 1, cap := 2 }, true) := by decide

theorem check_diff_patch_lastseen :
    peerChangeDiff { id := 1, lastSeen := some 1 } { id := 1, lastSeen := some 2 }
      = (some { nodeID := 1, lastSeen := some 2 }, true) := by decide

theorem check_diff_patch_capabilities_to_empty :
    peerChangeDiff { id := 1, capabilities := ["foo"] } { id := 1 }
      = (some { nodeID := 1, capabilities := some [] }, true) := by decide

theorem check_diff_patch_online :
    peerChangeDiff { id := 1, online := some false } { id := 1, online := some true }
      = (some { nodeID := 1, online := some true }, true) := by decide

theorem check_diff_miss_name :
    peerChangeDiff { id := 1, name := "foo" } { id := 1, name := "bar" }
      = (none, false) := by decide

theorem check_diff_miss_user :
    peerChangeDiff { id := 1, user := 1 } { id := 1, user := 2 } = (none, false) := by decide

theorem check_diff_miss_id :
    peerChangeDiff { id := 1 } { id := 2 } = (none, false) := by decide

theorem check_diff_miss_masq :
    peerChangeDiff { id := 1, masqV4 := some "100.64.0.1" }
        { id := 1, masqV4 := some "100.64.0.2" } = (none, false) := by decide

theorem check_update_full_peers :
    updatePeersStateFromResponse 0 [] { peers := [fooNode, barNode] }
      = ([(1, fooNode), (2, barNode)], { allNew := true, added := 2 }) := by decide

theorem check_update_add_and_update :
    (updatePeersStateFromResponse 0 [(1, fooNode), (2, barNode)]
        { peersChanged := [{ id := 0, name := "zero" }, { id := 2, name := "bar2" },
                           { id := 3, name := "three" }] }).2
      = { added := 2, changed := 1 } := by decide

theorem check_update_remove :
    updatePeersStateFromResponse 0 [(1, fooNode), (2, barNode)]
        { peersRemoved := [1, 3, 4] }
      = ([(2, barNode)], { removed := 1 }) := by decide

theorem check_update_online_change :
    updatePeersStateFromResponse 0 [(1, fooNode), (2, barNode)]
        { onlineChange := [(1, true), (404, true)] }
      = ([(1, { fooNode with online := some true }), (2, barNode)],
         { changed := 1 }) := by decide

theorem check_update_peer_seen_at :
    updatePeersStateFromResponse 123
        [(1, { fooNode with lastSeen := some 111 }), (2, barNode)]
        { peerSeenChange := [(1, false), (2, true)] }
      = ([(1, fooNode), (2, { barNode with lastSeen := some 123 })],
         { changed := 2 }) := by decide

theorem check_update_ep_change_derp :
    updatePeersStateFromResponse 0 [(1, { fooNode with derp := "127.3.3.40:3" })]
        { peersChangedPatch := [{ nodeID := 1, derpRegion := 4 }] }
      = ([(1, { fooNode with derp := "127.3.3.40:4" })], { changed := 1 }) := by decide

theorem check_update_ep_change_both :
    updatePeersStateFromResponse 0
        [(1, { fooNode with derp := "127.3.3.40:3", endpoints := ["1.2.3.4:111"] })]
        { peersChangedPatch :=
            [{ nodeID := 1, derpRegion := 2, endpoints := some ["1.2.3.4:56"] }] }
      = ([(1, { fooNode with derp := "127.3.3.40:2", endpoints := ["1.2.3.4:56"] })],
         { changed := 1 }) := by decide

theorem check_update_change_key_signature :
    updatePeersStateFromResponse 0 [(1, fooNode)]
        { peersChangedPatch := [{ nodeID := 1, keySignature := some [3, 4] }] }
      = ([(1, { fooNode with keySignature := [3, 4] })], { changed := 1 }) := by decide

theorem check_patchify_change_some :
    patchifyPeersChanged
        [(1, { id := 1, derp := "127.3.3.40:1", hostinfo := "hi" }),
         (2, { id := 2, derp := "127.3.3.40:2", hostinfo := "hi" }),
         (3, { id := 3, derp := "127.3.3.40:3", hostinfo := "hi" })]
        [{ id := 1, derp := "127.3.3.40:11", hostinfo := "hi" },
         { id := 2, stableID := "other-change", hostinfo := "hi" },
         { id := 3, derp := "127.3.3.40:33", hostinfo := "hi" },
         { id := 4, derp := "127.3.3.40:4", hostinfo := "hi" }]
      = ([{ id := 2, stableID := "other-change", hostinfo := "hi" },
          { id := 4, derp := "127.3.3.40:4", hostinfo := "hi" }],
         [{ nodeID := 1, derpRegion := 11 }, { nodeID := 3, derpRegion := 33 }]) := by
  decide

theorem check_patchify_exitnode_resolvers :
    patchifyPeersChanged [(1, { id := 1, exitNodeDNSResolvers := ["dns.example.com"] })]
        [{ id := 1, exitNodeDNSResolvers := ["dns2.example.com"] }]
      = ([{ id := 1, exitNodeDNSResolvers := ["dns2.example.com"] }], []) := by decide

theorem check_patchify_same_resolvers :
    patchifyPeersChanged [(1, { id := 1, exitNodeDNSResolvers := ["dns.example.com"] })]
        [{ id := 1, exitNodeDNSResolvers := ["dns.example.com"] }]
      = ([], []) := by decide

theorem check_derp_regions_sticky :
    mergeDERPMap (some { regions := [(1, { regionID := 1 })] }) (some {})
      = some { regions := [(1, { regionID := 1 })] } := by decide

theorem check_derp_regions_change :
    mergeDERPMap (some { regions := [(1, { regionID := 1 })] })
        (some { regions := [(1, { regionID := 1, nodes := ["b"] })] })
      = some { regions := [(1, { regionID := 1, nodes := ["b"] })] } := by decide

end Tailscale
